import Mathlib

/-!
Shallow embedding of the wizard engine (`wizard.ts`): control signals,
wizard control constants, prompt results, step resolution, bound steps,
the step estimator, `promptUser` bookkeeping, and the cache accessors.

External collaborators (the form's visibility predicate `canShowProperty`,
the state-machine controller's `containsStep` / step counters, and the
prompter) are abstracted as parameters, exactly as the wizard consumes
them through their interfaces.
-/

set_option autoImplicit false

/-- Control signals interpreted by the state machine controller
(`ControlSignal` from `stateController`). -/
inductive ControlSignal where
  | Exit
  | Back
  | Retry
deriving DecidableEq

/-- The wizard control constants. The source builds four distinct
`WizardControl` objects (`WIZARD_FORCE_EXIT`, `WIZARD_EXIT`, `WIZARD_BACK`,
`WIZARD_RETRY`) and compares them by object identity, so each constant is a
distinct constructor here; `WIZARD_FORCE_EXIT` and `WIZARD_EXIT` share the
same `ControlSignal.Exit` tag but are different objects. -/
inductive WizardControl where
  | forceExit
  | exit
  | back
  | retry
deriving DecidableEq

/-- The `type` field of each wizard control constant. -/
def WizardControl.type : WizardControl → ControlSignal
  | .forceExit => .Exit
  | .exit => .Exit
  | .back => .Back
  | .retry => .Retry

/-- `PromptResult<T> = T | WizardControl | undefined`. -/
inductive PromptResult (V : Type) where
  | answer (v : V)
  | control (c : WizardControl)
  | undef
deriving DecidableEq

/-- `isValidResponse`: the response is not `undefined` and not a control. -/
def isValidResponse {V : Type} : PromptResult V → Bool
  | .answer _ => true
  | _ => false

/-- `isWizardControl`: `obj instanceof WizardControl`. -/
def isWizardControl {V : Type} : PromptResult V → Bool
  | .control _ => true
  | _ => false

/-- `shouldDispose(signal)`: membership (by identity) of the signal in
`[WIZARD_EXIT, WIZARD_BACK, WIZARD_FORCE_EXIT]`. -/
def shouldDispose (c : WizardControl) : Bool :=
  [WizardControl.exit, WizardControl.back, WizardControl.forceExit].contains c

/-- `shouldDispose` as applied to a raw `PromptResult` in `promptUser`
(an `undefined` or plain answer is never one of the three constants). -/
def shouldDisposeResponse {V : Type} : PromptResult V → Bool
  | .control c => shouldDispose c
  | _ => false

/-- Wizard state: a record from property names to optionally-present
values, modelled as an association list (`lodash` get/set on flat keys). -/
def WState (V : Type) := List (String × Option V)

instance {V : Type} [DecidableEq V] : DecidableEq (WState V) :=
  inferInstanceAs (DecidableEq (List (String × Option V)))

/-- Read a property (`_.get`); an absent key reads as `undefined`. -/
def getProp {V : Type} (s : WState V) (p : String) : Option V :=
  match s.find? (fun e => e.1 == p) with
  | some e => e.2
  | none => none

/-- Write a property (`_.set`): replace the first binding of `p`, or append
a fresh binding when none exists. Writing `none` models setting the
property to `undefined`. -/
def setProp {V : Type} : WState V → String → Option V → WState V
  | [], p, x => [(p, x)]
  | (q, y) :: rest, p, x =>
    if q = p then (q, x) :: rest else (q, y) :: setProp rest p x

namespace Wizard

/-- One iteration of the `boundSteps.forEach` body in `resolveNextSteps`:
the accumulator carries the branch built so far and the running
`currentlyAssigned` set (insertion-ordered, as a list). -/
def resolveStep {V : Type} (canShow : String → WState V → List String → Bool)
    (containsStep : String → Bool) (state : WState V)
    (acc : List String × List String) (targetProp : String) :
    List String × List String :=
  if canShow targetProp state acc.2 && !containsStep targetProp then
    (acc.1 ++ [targetProp], acc.2 ++ [targetProp])
  else acc

/-- `Wizard.resolveNextSteps(state, assigned)`: iterate over the bound
properties in binding order, pushing every property whose visibility
predicate holds against the running assigned set and whose step is not
already held by the state controller, adding each pushed property to the
running set at once. Returns the branch (as the list of target
properties). -/
def resolveNextSteps {V : Type} (canShow : String → WState V → List String → Bool)
    (containsStep : String → Bool) (boundSteps : List String)
    (state : WState V) (assigned : List String) : List String :=
  (boundSteps.foldl (resolveStep canShow containsStep state)
    (([] : List String), assigned)).1

/-- The same pass written as structural recursion, following the claim:
a property passing the predicate (against the running set) and not already
scheduled is appended to the branch and immediately added to the running
set seen by the later properties. -/
def resolveNextStepsRec {V : Type} (canShow : String → WState V → List String → Bool)
    (containsStep : String → Bool) :
    List String → WState V → List String → List String
  | [], _, _ => []
  | p :: ps, state, assigned =>
    if canShow p state assigned && !containsStep p then
      p :: resolveNextStepsRec canShow containsStep ps state (assigned ++ [p])
    else
      resolveNextStepsRec canShow containsStep ps state assigned

/-- `Wizard.getAssigned()`: the bound properties whose step the state
controller currently contains, in binding order. -/
def getAssigned (containsStep : String → Bool) (boundSteps : List String) :
    List String :=
  boundSteps.filter containsStep

end Wizard

/-- A step held in a branch: either the bound step of a property, or the
dedicated exit-confirmation step. -/
inductive WStep where
  | bound (p : String)
  | exitConfirm
deriving DecidableEq

/-- The record returned by a step function:
`{ nextState, nextSteps, controlSignal }`. -/
structure StepResult (V : Type) where
  nextState : WState V
  nextSteps : List WStep
  controlSignal : Option ControlSignal
deriving DecidableEq

namespace Wizard

/-- The response-handling tail of the closure built by
`Wizard.createBoundStep(prop, provider)`, as a function of the prompter's
settled response. `hasExitStep` models `this.exitStep !== undefined`.

The source first checks `response === WIZARD_EXIT && this.exitStep !==
undefined` (identity against the `WIZARD_EXIT` constant); otherwise it
builds the result object, whose `nextState` expression mutates `state` in
place via `_.set` before `resolveNextSteps(state)` is evaluated — so the
resolution sees the updated state exactly when the response was valid. -/
def createBoundStep {V : Type} (canShow : String → WState V → List String → Bool)
    (containsStep : String → Bool) (boundSteps : List String)
    (hasExitStep : Bool) (p : String) (state : WState V)
    (response : PromptResult V) : StepResult V :=
  match response, hasExitStep with
  | .control .exit, true => ⟨state, [WStep.exitConfirm], none⟩
  | _, _ =>
    let nextState : WState V :=
      match response with
      | .answer v => setProp state p (some v)
      | _ => state
    ⟨nextState,
      (resolveNextSteps canShow containsStep boundSteps nextState
        (getAssigned containsStep boundSteps)).map WStep.bound,
      match response with
      | .control c => some c.type
      | _ => none⟩

/-- One invocation of the closure built by
`Wizard.createStepEstimator(state, prop)`. The closure owns a deep copy of
the state taken at creation time (`state = _.cloneDeep(state)`, here the
`clone` argument) and mutates only that copy, which is threaded as the
second component: a control-signal response returns 0 untouched;
otherwise the hypothetical response is written at `prop`, the newly
revealed steps are counted with the assigned set `{prop}`, the parent
estimator (when chained) is added, and `prop` is reset to `undefined`. -/
def createStepEstimator {V : Type} (canShow : String → WState V → List String → Bool)
    (containsStep : String → Bool) (boundSteps : List String)
    (parentEstimator : WState V → Nat) (clone : WState V) (prop : String)
    (response : PromptResult V) : Nat × WState V :=
  match response with
  | .control _ => (0, clone)
  | _ =>
    let speculative : WState V :=
      setProp clone prop
        (match response with
         | .answer v => some v
         | _ => none)
    let estimate := (resolveNextSteps canShow containsStep boundSteps
      speculative [prop]).length
    let parentEstimate := parentEstimator speculative
    (estimate + parentEstimate, setProp speculative prop none)

/-- A sequence of estimator invocations against the same closure: the
clone state mutated by each call is threaded into the next call, and the
returned estimates are collected in order. -/
def estimatorRun {V : Type} (canShow : String → WState V → List String → Bool)
    (containsStep : String → Bool) (boundSteps : List String)
    (parentEstimator : WState V → Nat) (prop : String) :
    WState V → List (PromptResult V) → List Nat
  | _, [] => []
  | clone, r :: rs =>
    let out := createStepEstimator canShow containsStep boundSteps
      parentEstimator clone prop r
    out.1 :: estimatorRun canShow containsStep boundSteps parentEstimator
      prop out.2 rs

end Wizard

/-- The per-property `StepCache`: `{ picked?, stepOffset? }`. -/
structure StepCache (V : Type) where
  picked : Option V := none
  stepOffset : Option (Int × Int) := none
deriving DecidableEq

/-- The prompter as observed by one `promptUser` call: the settled
`promptControl()` result, the prompter's `totalSteps` (logical steps this
prompt consumes), and the prompter's `recentItem` as read back after the
prompt. -/
structure PrompterModel (V : Type) where
  promptResult : PromptResult V
  totalSteps : Int
  recentAfter : Option V
deriving DecidableEq

/-- Everything one `Wizard.promptUser` invocation does, in order: the
wizard step offset after the restore from the cache, the cache as saved
before the prompter is configured, the `{current, total}` numbers handed
to `prompter.configure`, the `recentItem` seeding, the cache after the
response is handled, whether `prompter.dispose()` was invoked, the wizard
step offset after the final advance, and the returned response. -/
structure PromptOutcome (V : Type) where
  offsetAtPrompt : Int × Int
  cacheAtPrompt : StepCache V
  displayedSteps : Int × Int
  seededRecent : Option V
  cacheAfter : StepCache V
  disposed : Bool
  finalOffset : Int × Int
  response : PromptResult V
deriving DecidableEq

namespace Wizard

/-- `Wizard.promptUser(state, provider, impliedResponse)`, with the
wizard's `_stepOffset`, the property's `stepCache`, the inner state
controller's counters, and the prompter abstracted as inputs.

Source order: restore `_stepOffset` from `stepCache.stepOffset` when
saved; write the restored offset back into the cache; configure the
prompter with `{current: this.currentStep, total: this.totalSteps}`; seed
`recentItem` from `picked`, else the implied response; await the answer;
on a valid answer store `prompter.recentItem` into `picked`, otherwise
delete the cached `stepOffset` and dispose the prompter exactly when
`this.currentStep === 1` and `shouldDispose(answer)`; finally advance both
offset components by `prompter.totalSteps - 1`. -/
def promptUser {V : Type} (stepOffset : Int × Int) (stepCache : StepCache V)
    (ctrlCurrentStep ctrlTotalSteps : Int) (prompter : PrompterModel V)
    (impliedResponse : Option V) : PromptOutcome V :=
  let off := stepCache.stepOffset.getD stepOffset
  let cacheSaved : StepCache V := { stepCache with stepOffset := some off }
  let displayed : Int × Int := (off.1 + ctrlCurrentStep, off.2 + ctrlTotalSteps)
  let seeded : Option V :=
    if cacheSaved.picked.isSome then cacheSaved.picked
    else if impliedResponse.isSome then impliedResponse
    else none
  let answer := prompter.promptResult
  let cacheAfter : StepCache V :=
    if isValidResponse answer then { cacheSaved with picked := prompter.recentAfter }
    else { cacheSaved with stepOffset := none }
  let disposed : Bool :=
    if isValidResponse answer then false
    else decide (off.1 + ctrlCurrentStep = 1) && shouldDisposeResponse answer
  let finalOffset : Int × Int :=
    (off.1 + prompter.totalSteps - 1, off.2 + prompter.totalSteps - 1)
  ⟨off, cacheSaved, displayed, seeded, cacheAfter, disposed, finalOffset, answer⟩

end Wizard

/-- The inner state controller's exposed counters. -/
structure StateMachineCounters where
  currentStep : Int
  totalSteps : Int
deriving DecidableEq

/-- The wizard fields the step-offset getters and setter touch. -/
structure WizardView where
  stepOffset : Int × Int
deriving DecidableEq

namespace Wizard

/-- The `stepOffset` setter: stores the pair in `_stepOffset`. -/
def setStepOffset (w : WizardView) (offset : Int × Int) : WizardView :=
  { w with stepOffset := offset }

/-- The `currentStep` getter: `_stepOffset[0] + controller.currentStep`. -/
def currentStep (w : WizardView) (ctrl : StateMachineCounters) : Int :=
  w.stepOffset.1 + ctrl.currentStep

/-- The `totalSteps` getter: `_stepOffset[1] + controller.totalSteps`. -/
def totalSteps (w : WizardView) (ctrl : StateMachineCounters) : Int :=
  w.stepOffset.2 + ctrl.totalSteps

/-- The wizard's internal cache table (`caches`), keyed by property. -/
def CacheTable (V : Type) := List (String × StepCache V)

/-- The `cache` getter: throws while the wizard is running, otherwise
returns the internal table. -/
def getCache {V : Type} (running : Bool) (caches : CacheTable V) :
    Except String (CacheTable V) :=
  if running then .error "Cannot retrieve cache while wizard is running."
  else .ok caches

/-- The `cache` setter: throws while the wizard is running, otherwise
replaces the internal table with the given one. -/
def setCacheTable {V : Type} (running : Bool) (_caches newTable : CacheTable V) :
    Except String (CacheTable V) :=
  if running then .error "Cannot set cache while wizard is running."
  else .ok newTable

end Wizard

/-! ## Claim-specific concrete instantiations -/

/-- Visibility predicate for the C1 demonstration: "a" is always visible,
"b" is visible exactly when "a" is in the assigned set handed to the
predicate. -/
def runningSetCanShow : String → WState Unit → List String → Bool :=
  fun p _ assigned => p == "a" || assigned.contains "a"

/-- Controller membership for the C1 demonstration: no step is scheduled. -/
def runningSetContains : String → Bool := fun _ => false

/-! ## Theorems -/

/-- The `forEach` fold of `resolveNextSteps` computes the recursive pass
`resolveNextStepsRec`, prefixing whatever branch was accumulated so far. -/
theorem resolveSteps_foldl_append {V : Type}
    (canShow : String → WState V → List String → Bool)
    (containsStep : String → Bool) (state : WState V) :
    ∀ (boundSteps acc assigned : List String),
      (boundSteps.foldl (Wizard.resolveStep canShow containsStep state)
        (acc, assigned)).1
        = acc ++ Wizard.resolveNextStepsRec canShow containsStep boundSteps
            state assigned := by
  intro bs
  induction bs with
  | nil => intro acc assigned; simp [Wizard.resolveNextStepsRec]
  | cons p ps ih =>
    intro acc assigned
    by_cases h : (canShow p state assigned && !containsStep p) = true
    · simp [List.foldl, Wizard.resolveNextStepsRec, Wizard.resolveStep, h, ih]
    · simp [List.foldl, Wizard.resolveNextStepsRec, Wizard.resolveStep, h, ih]

/-- C1: `resolveNextSteps` iterates over the bound properties in binding
order and, for each property whose step is not already held by the
controller, evaluates the visibility predicate against the state together
with the running copy of the assigned set, appending each passing property
to the branch and to the running copy at once (the recursive
characterisation `resolveNextStepsRec`); concretely, property "b" is
resolved even though its predicate fails against the original assigned
set, solely because "a" was appended to the running copy earlier in the
same pass. -/
theorem resolveNextSteps_usesRunningAssignedSet :
    (∀ (V : Type) (canShow : String → WState V → List String → Bool)
        (containsStep : String → Bool) (boundSteps : List String)
        (state : WState V) (assigned : List String),
      Wizard.resolveNextSteps canShow containsStep boundSteps state assigned
        = Wizard.resolveNextStepsRec canShow containsStep boundSteps state
            assigned)
    ∧ Wizard.resolveNextSteps runningSetCanShow runningSetContains
        ["a", "b"] ([] : WState Unit) [] = ["a", "b"]
    ∧ runningSetCanShow "b" ([] : WState Unit) [] = false := by
  refine ⟨?_, rfl, rfl⟩
  intro V canShow containsStep boundSteps state assigned
  simpa [Wizard.resolveNextSteps] using
    resolveSteps_foldl_append canShow containsStep state boundSteps [] assigned

/-- C3: after the `stepOffset` setter stores `[a, b]`, the `currentStep`
getter returns `a` plus the inner controller's `currentStep` and the
`totalSteps` getter returns `b` plus the inner controller's `totalSteps`,
for every value of the inner counters. -/
theorem stepOffset_additivity :
    ∀ (w : WizardView) (a b : Int) (ctrl : StateMachineCounters),
      Wizard.currentStep (Wizard.setStepOffset w (a, b)) ctrl
          = a + ctrl.currentStep
        ∧ Wizard.totalSteps (Wizard.setStepOffset w (a, b)) ctrl
          = b + ctrl.totalSteps := by
  intro w a b ctrl
  exact ⟨rfl, rfl⟩

/-- C4: a `WIZARD_EXIT` response with an exit step configured returns the
unchanged state with the exit-confirmation step as the only next step and
no control signal; a `WIZARD_FORCE_EXIT` response never takes that branch
(whether or not an exit step exists) and instead surfaces
`ControlSignal.Exit` through the normal flow, even though `forceExit` and
`exit` carry the same tag. -/
theorem boundStep_exitBranch_vs_forceExit :
    ∀ (V : Type) (canShow : String → WState V → List String → Bool)
      (containsStep : String → Bool) (boundSteps : List String)
      (p : String) (state : WState V) (hasExitStep : Bool),
      Wizard.createBoundStep canShow containsStep boundSteps true p state
          (.control .exit)
        = ⟨state, [WStep.exitConfirm], none⟩
      ∧ Wizard.createBoundStep canShow containsStep boundSteps hasExitStep p
          state (.control .forceExit)
        = ⟨state,
            (Wizard.resolveNextSteps canShow containsStep boundSteps state
              (Wizard.getAssigned containsStep boundSteps)).map WStep.bound,
            some ControlSignal.Exit⟩
      ∧ WizardControl.forceExit.type = WizardControl.exit.type := by
  intro V canShow containsStep boundSteps p state hasExitStep
  refine ⟨rfl, ?_, rfl⟩
  cases hasExitStep <;> rfl

/-- C9: reading or writing the wizard's cache while it is running yields
the synchronous error; while not running, the getter returns the internal
table, the setter replaces it, and a set followed by a get returns the
table that was set. -/
theorem cache_access_contract :
    ∀ (V : Type) (caches newTable : Wizard.CacheTable V),
      Wizard.getCache true caches
          = Except.error "Cannot retrieve cache while wizard is running."
        ∧ Wizard.setCacheTable true caches newTable
          = Except.error "Cannot set cache while wizard is running."
        ∧ Wizard.getCache false caches = Except.ok caches
        ∧ Wizard.setCacheTable false caches newTable = Except.ok newTable
        ∧ Wizard.getCache false newTable = Except.ok newTable := by
  intro V caches newTable
  exact ⟨rfl, rfl, rfl, rfl, rfl⟩

/-- C10: an `undefined` prompter response makes the bound step return the
input state unchanged, no control signal, and next steps from re-running
step resolution against that unchanged state — at the step-function
interface a cancellation is an ordinary continue. -/
theorem boundStep_undefinedResponse_continue :
    ∀ (V : Type) (canShow : String → WState V → List String → Bool)
      (containsStep : String → Bool) (boundSteps : List String)
      (hasExitStep : Bool) (p : String) (state : WState V),
      Wizard.createBoundStep canShow containsStep boundSteps hasExitStep p
          state PromptResult.undef
        = ⟨state,
            (Wizard.resolveNextSteps canShow containsStep boundSteps state
              (Wizard.getAssigned containsStep boundSteps)).map WStep.bound,
            none⟩ := by
  intro V canShow containsStep boundSteps hasExitStep p state
  cases hasExitStep <;> rfl

/-- Visibility predicate for the C2 instances: no property is visible. -/
def noneCanShow : String → WState Unit → List String → Bool := fun _ _ _ => false

/-- Controller membership for the C2 instances: no step is scheduled. -/
def noneContains : String → Bool := fun _ => false

/-- C2 counterexample: with an exit-confirmation step configured and the
response being the `WIZARD_EXIT` constant, the bound step result carries
no control signal and its next steps are the exit-confirmation branch, not
the re-resolved steps — contradicting the claim that every control-signal
response surfaces its tag with next steps from re-resolution. -/
theorem boundStep_controlSignal_cex :
    (Wizard.createBoundStep noneCanShow noneContains ["a"] true "a"
        ([] : WState Unit) (.control .exit)).controlSignal
      ≠ some ControlSignal.Exit
    ∧ (Wizard.createBoundStep noneCanShow noneContains ["a"] true "a"
        ([] : WState Unit) (.control .exit)).nextSteps
      ≠ (Wizard.resolveNextSteps noneCanShow noneContains ["a"]
          ([] : WState Unit)
          (Wizard.getAssigned noneContains ["a"])).map WStep.bound := by
  exact ⟨by decide, by decide⟩

/-- C2 amended: except when the response is the `WIZARD_EXIT` constant and
an exit-confirmation step exists (that case takes the exit branch of C4),
a valid answer yields the input state with exactly `p` set to the answer,
no control signal, and next steps re-resolved against the updated state; a
control-signal response yields the unchanged input state, the signal's tag
as `controlSignal`, and next steps re-resolved against the unchanged
state. -/
theorem boundStep_normalFlow (V : Type)
    (canShow : String → WState V → List String → Bool)
    (containsStep : String → Bool) (boundSteps : List String)
    (hasExitStep : Bool) (p : String) (state : WState V)
    (response : PromptResult V)
    (h : ¬(response = PromptResult.control WizardControl.exit
            ∧ hasExitStep = true)) :
    (∀ v, response = PromptResult.answer v →
      Wizard.createBoundStep canShow containsStep boundSteps hasExitStep p
          state response
        = ⟨setProp state p (some v),
            (Wizard.resolveNextSteps canShow containsStep boundSteps
              (setProp state p (some v))
              (Wizard.getAssigned containsStep boundSteps)).map WStep.bound,
            none⟩)
    ∧ (∀ c, response = PromptResult.control c →
      Wizard.createBoundStep canShow containsStep boundSteps hasExitStep p
          state response
        = ⟨state,
            (Wizard.resolveNextSteps canShow containsStep boundSteps state
              (Wizard.getAssigned containsStep boundSteps)).map WStep.bound,
            some c.type⟩) := by
  constructor
  · intro v hv
    subst hv
    cases hasExitStep <;> rfl
  · intro c hc
    subst hc
    cases c <;> cases hasExitStep <;>
      first
        | rfl
        | exact absurd ⟨rfl, rfl⟩ h

/-- C2 witness: the amended theorem at a concrete input — a `WIZARD_BACK`
response with an exit step configured leaves the empty state unchanged,
resolves no next steps, and surfaces `ControlSignal.Back`. -/
theorem boundStep_normalFlow_witness :
    Wizard.createBoundStep noneCanShow noneContains ["a"] true "a"
        ([] : WState Unit) (.control .back)
      = ⟨[], [], some ControlSignal.Back⟩ := by
  have h := boundStep_normalFlow Unit noneCanShow noneContains ["a"] true "a"
    [] (.control .back) (by decide)
  exact h.2 WizardControl.back rfl

/-- Visibility predicate for the C5 counterexample: a property is visible
exactly when it is not yet in the assigned set. -/
def unassignedCanShow : String → WState Unit → List String → Bool :=
  fun p _ assigned => !assigned.contains p

/-- Controller membership for the C5 counterexample: nothing scheduled. -/
def unassignedContains : String → Bool := fun _ => false

/-- Parent estimator for the C5 counterexample: no parent wizard. -/
def zeroParentEstimator : WState Unit → Nat := fun _ => 0

/-- C5 counterexample: an `undefined` hypothetical response does not make
the estimator return 0 — the guard `response !== undefined &&
!isValidResponse(response)` lets `undefined` through, so the property is
speculatively set to `undefined` and the newly revealed steps are counted
(here property "b" yields estimate 1). -/
theorem estimator_undef_cex :
    (Wizard.createStepEstimator unassignedCanShow unassignedContains
        ["a", "b"] zeroParentEstimator ([] : WState Unit) "a"
        PromptResult.undef).1 ≠ 0 := by
  decide

/-- C5 amended: for every control-signal hypothetical response the
estimator returns an estimate of 0 (and, being total, never throws); an
`undefined` response instead passes the guard and is estimated like an
answer with the property set to `undefined`. -/
theorem estimator_controlSignal_zero :
    ∀ (V : Type) (canShow : String → WState V → List String → Bool)
      (containsStep : String → Bool) (boundSteps : List String)
      (parentEstimator : WState V → Nat) (clone : WState V) (p : String)
      (c : WizardControl),
      (Wizard.createStepEstimator canShow containsStep boundSteps
          parentEstimator clone p (.control c)).1 = 0
      ∧ (Wizard.createStepEstimator canShow containsStep boundSteps
          parentEstimator clone p PromptResult.undef).1
        = (Wizard.resolveNextSteps canShow containsStep boundSteps
            (setProp clone p none) [p]).length
          + parentEstimator (setProp clone p none) := by
  intro V canShow containsStep boundSteps parentEstimator clone p c
  exact ⟨rfl, rfl⟩

/-- Overwriting the same property twice keeps only the last write. -/
theorem setProp_setProp {V : Type} (s : WState V) (p : String)
    (x y : Option V) :
    setProp (setProp s p x) p y = setProp s p y := by
  induction s with
  | nil => simp [setProp]
  | cons e rest ih =>
    obtain ⟨q, z⟩ := e
    by_cases h : q = p
    · simp [setProp, h]
    · simp [setProp, h, ih]

/-- The estimate one call produces does not depend on the residue a
previous call left at `prop` (the reset to `undefined`). -/
theorem estimator_call_after_reset {V : Type}
    (canShow : String → WState V → List String → Bool)
    (containsStep : String → Bool) (boundSteps : List String)
    (parentEstimator : WState V → Nat) (prop : String) (clone : WState V)
    (r : PromptResult V) :
    (Wizard.createStepEstimator canShow containsStep boundSteps
        parentEstimator (setProp clone prop none) prop r).1
      = (Wizard.createStepEstimator canShow containsStep boundSteps
          parentEstimator clone prop r).1 := by
  cases r with
  | control c => rfl
  | answer v => simp [Wizard.createStepEstimator, setProp_setProp]
  | undef => simp [Wizard.createStepEstimator, setProp_setProp]

/-- Running a sequence of estimator calls from either the fresh clone or
the clone with `prop` reset yields, for each response, the estimate of a
single fresh call. -/
theorem estimatorRun_eq_aux {V : Type}
    (canShow : String → WState V → List String → Bool)
    (containsStep : String → Bool) (boundSteps : List String)
    (parentEstimator : WState V → Nat) (prop : String) (clone : WState V) :
    ∀ (rs : List (PromptResult V)) (s : WState V),
      s = clone ∨ s = setProp clone prop none →
      Wizard.estimatorRun canShow containsStep boundSteps parentEstimator
          prop s rs
        = rs.map (fun r => (Wizard.createStepEstimator canShow containsStep
            boundSteps parentEstimator clone prop r).1) := by
  intro rs
  induction rs with
  | nil => intro s _; rfl
  | cons r rest ih =>
    intro s hs
    have h1 : (Wizard.createStepEstimator canShow containsStep boundSteps
        parentEstimator s prop r).1
        = (Wizard.createStepEstimator canShow containsStep boundSteps
            parentEstimator clone prop r).1 := by
      rcases hs with h | h
      · rw [h]
      · rw [h]
        exact estimator_call_after_reset canShow containsStep boundSteps
          parentEstimator prop clone r
    have h2 : (Wizard.createStepEstimator canShow containsStep boundSteps
        parentEstimator s prop r).2 = clone
        ∨ (Wizard.createStepEstimator canShow containsStep boundSteps
            parentEstimator s prop r).2 = setProp clone prop none := by
      rcases hs with h | h <;> subst h <;> cases r with
      | control c => first | exact Or.inl rfl | exact Or.inr rfl
      | answer v =>
        exact Or.inr (by simp [Wizard.createStepEstimator, setProp_setProp])
      | undef =>
        exact Or.inr (by simp [Wizard.createStepEstimator, setProp_setProp])
    simp [Wizard.estimatorRun, h1, ih _ h2]

/-- C6: the estimator closure owns a private clone of the state taken at
creation time and touches nothing else, and calling it repeatedly with any
sequence of hypothetical responses yields, for every response in the
sequence, exactly the estimate of a single call on the fresh closure: the
reset-to-`undefined` residue earlier calls leave at `prop` in the clone
never changes a later estimate. -/
theorem estimator_repeatedCalls_consistent :
    ∀ (V : Type) (canShow : String → WState V → List String → Bool)
      (containsStep : String → Bool) (boundSteps : List String)
      (parentEstimator : WState V → Nat) (prop : String) (clone : WState V)
      (rs : List (PromptResult V)),
      Wizard.estimatorRun canShow containsStep boundSteps parentEstimator
          prop clone rs
        = rs.map (fun r => (Wizard.createStepEstimator canShow containsStep
            boundSteps parentEstimator clone prop r).1) := by
  intro V canShow containsStep boundSteps parentEstimator prop clone rs
  exact estimatorRun_eq_aux canShow containsStep boundSteps parentEstimator
    prop clone rs clone (Or.inl rfl)

/-- C7: each `promptUser` invocation restores the wizard's step offset
from the property's cached `stepOffset` when one is saved (otherwise keeps
the current offset), saves the restored offset back into the cache before
the prompter is configured, displays the restored offset plus the
controller counters as `{current, total}`, and finishes with both offset
components equal to their post-restore values plus
`prompter.totalSteps - 1`. -/
theorem promptUser_offset_bookkeeping :
    ∀ (V : Type) (stepOffset : Int × Int) (stepCache : StepCache V)
      (cur tot : Int) (prompter : PrompterModel V) (implied : Option V),
      (Wizard.promptUser stepOffset stepCache cur tot prompter
          implied).offsetAtPrompt
        = stepCache.stepOffset.getD stepOffset
      ∧ (Wizard.promptUser stepOffset stepCache cur tot prompter
          implied).cacheAtPrompt
        = { stepCache with
            stepOffset := some (stepCache.stepOffset.getD stepOffset) }
      ∧ (Wizard.promptUser stepOffset stepCache cur tot prompter
          implied).displayedSteps
        = ((stepCache.stepOffset.getD stepOffset).1 + cur,
           (stepCache.stepOffset.getD stepOffset).2 + tot)
      ∧ (Wizard.promptUser stepOffset stepCache cur tot prompter
          implied).finalOffset
        = ((stepCache.stepOffset.getD stepOffset).1 + prompter.totalSteps - 1,
           (stepCache.stepOffset.getD stepOffset).2 + prompter.totalSteps - 1)
      := by
  intro V stepOffset stepCache cur tot prompter implied
  exact ⟨rfl, rfl, rfl, rfl⟩

/-- C8: on a valid answer `promptUser` stores the prompter's `recentItem`
into the cache's `picked` field and does not dispose; on any non-valid
response the cache's saved `stepOffset` is deleted, and `dispose()` is
invoked if and only if the wizard's `currentStep` (post-restore offset
plus controller counter) equals 1 and the response is one of
`WIZARD_EXIT`, `WIZARD_BACK`, `WIZARD_FORCE_EXIT` — never for
`WIZARD_RETRY` or an `undefined` response. -/
theorem promptUser_picked_and_dispose :
    ∀ (V : Type) (stepOffset : Int × Int) (stepCache : StepCache V)
      (cur tot : Int) (prompter : PrompterModel V) (implied : Option V),
      (isValidResponse prompter.promptResult = true →
        (Wizard.promptUser stepOffset stepCache cur tot prompter
            implied).cacheAfter.picked = prompter.recentAfter
          ∧ (Wizard.promptUser stepOffset stepCache cur tot prompter
              implied).disposed = false)
      ∧ (isValidResponse prompter.promptResult = false →
        (Wizard.promptUser stepOffset stepCache cur tot prompter
            implied).cacheAfter.stepOffset = none
          ∧ ((Wizard.promptUser stepOffset stepCache cur tot prompter
              implied).disposed = true ↔
                (stepCache.stepOffset.getD stepOffset).1 + cur = 1
                ∧ (prompter.promptResult
                      = PromptResult.control WizardControl.exit
                    ∨ prompter.promptResult
                      = PromptResult.control WizardControl.back
                    ∨ prompter.promptResult
                      = PromptResult.control WizardControl.forceExit))) := by
  intro V stepOffset stepCache cur tot prompter implied
  obtain ⟨res, total, recent⟩ := prompter
  constructor
  · intro hvalid
    cases res with
    | answer v => exact ⟨rfl, rfl⟩
    | control c => simp [isValidResponse] at hvalid
    | undef => simp [isValidResponse] at hvalid
  · intro hinvalid
    cases res with
    | answer v => simp [isValidResponse] at hinvalid
    | control c =>
      refine ⟨rfl, ?_⟩
      cases c <;>
        simp [Wizard.promptUser, isValidResponse, shouldDisposeResponse,
          shouldDispose, List.contains]
    | undef =>
      refine ⟨rfl, ?_⟩
      simp [Wizard.promptUser, isValidResponse, shouldDisposeResponse]

/-- C8 witness: at step 1 (zero offset, empty cache, controller counter 1)
a `WIZARD_EXIT` response deletes the cached step offset and disposes the
prompter. -/
theorem promptUser_picked_and_dispose_witness :
    (Wizard.promptUser (0, 0) (⟨none, none⟩ : StepCache Unit) 1 1
        ⟨.control .exit, 1, none⟩ none).cacheAfter.stepOffset = none
      ∧ (Wizard.promptUser (0, 0) (⟨none, none⟩ : StepCache Unit) 1 1
        ⟨.control .exit, 1, none⟩ none).disposed = true := by
  have h := (promptUser_picked_and_dispose Unit (0, 0) ⟨none, none⟩ 1 1
    ⟨.control .exit, 1, none⟩ none).2 rfl
  exact ⟨h.1, h.2.mpr ⟨by decide, Or.inl rfl⟩⟩
